import Mathlib

/-!
Verification of the deferred-mutation (removal-batching) queue of
`src/projects/ngx-mapbox-gl/src/lib/map/map.service.ts`.

The `MapService` class keeps five private arrays of pending removals
(`layerIdsToRemove`, `sourceIdsToRemove`, `markersToRemove`,
`popupsToRemove`, `imageIdsToRemove`, lines 112-116).  The public methods
`removeLayer` (298-300), `removeMarker` (337-339), `removePopupFromMap`
(382-387), `removeImage` (428-430) and `removeSource` (445-447) push onto
those arrays.  `applyChanges` (520-528) drains them in the fixed order
layers, sources, markers, popups, images via the private methods
`removeLayers` (551-560), `removeSources` (562-567), `removeMarkers`
(569-574), `removePopups` (576-581) and `removeImages` (583-588); each
private method runs a `for...of` loop over the live array, calling the
mapbox-gl engine for every entry, and then reassigns the field to a fresh
empty array.  `createMap` (530-549) subscribes `applyChanges` to
`zone.onMicrotaskEmpty`; `destroyMap` (145-148) unsubscribes and removes
the engine handle.

The embedding below is a faithful shallow model: queue state is a record
of five lists, the engine is modelled by which calls throw
(`Engine.fails`) and which reentrant enqueues a successful call triggers
synchronously (`Engine.effects`); each `for...of` loop is modelled by an
index-driven loop over the live list (JavaScript's array iterator sees
elements pushed during iteration), with a fuel parameter for termination,
and an uncaught exception (there is no `try`/`catch` anywhere in the
source) aborts the loop and the whole `applyChanges` call.
-/

namespace NgxMapboxGL

/-- Opaque mapbox-gl `Marker` handle (only its identity matters to the queue). -/
abbrev Marker := Nat

/-- Opaque mapbox-gl `Popup` handle (only its identity matters to the queue). -/
abbrev Popup := Nat

/-- A call made against the live mapbox-gl engine during a flush:
`mapInstance.off(event, layerId)`, `mapInstance.removeLayer`,
`mapInstance.removeSource`, `marker.remove()`, `popup.remove()`,
`mapInstance.removeImage`. -/
inductive EngineCall where
  | off (eventName : String) (layerId : String)
  | removeLayer (layerId : String)
  | removeSource (sourceId : String)
  | markerRemove (marker : Marker)
  | popupRemove (popup : Popup)
  | removeImage (imageId : String)
deriving DecidableEq

/-- The queue-relevant state of the `MapService` class: the five pending
arrays (`map.service.ts` lines 112-116, initialised empty) plus whether the
`onMicrotaskEmpty → applyChanges` subscription installed by `createMap`
(lines 540-541, 548) is still active (`destroyMap`, line 146, unsubscribes). -/
structure MapService where
  layerIdsToRemove : List String
  sourceIdsToRemove : List String
  markersToRemove : List Marker
  popupsToRemove : List Popup
  imageIdsToRemove : List String
  subscribed : Bool
deriving DecidableEq

/-- State right after construction and `createMap`: all five arrays are the
empty-array field initialisers of lines 112-116, and the flush subscription
is active. -/
def MapService.init : MapService :=
  ⟨[], [], [], [], [], true⟩

/-- `removeLayer(layerId)` (lines 298-300): `this.layerIdsToRemove.push(layerId)`. -/
def MapService.removeLayer (s : MapService) (layerId : String) : MapService :=
  { s with layerIdsToRemove := s.layerIdsToRemove ++ [layerId] }

/-- `removeSource(sourceId)` (lines 445-447): `this.sourceIdsToRemove.push(sourceId)`. -/
def MapService.removeSource (s : MapService) (sourceId : String) : MapService :=
  { s with sourceIdsToRemove := s.sourceIdsToRemove ++ [sourceId] }

/-- `removeMarker(marker)` (lines 337-339): `this.markersToRemove.push(marker)`. -/
def MapService.removeMarker (s : MapService) (marker : Marker) : MapService :=
  { s with markersToRemove := s.markersToRemove ++ [marker] }

/-- `removePopupFromMap(popup, skipCloseEvent)` (lines 382-387):
`this.popupsToRemove.push(popup)`.  (When `skipCloseEvent` is set the method
first deletes the close listener stored on the popup handle itself; that
mutates the externally owned handle, not the queue, and issues no engine
call.) -/
def MapService.removePopupFromMap (s : MapService) (popup : Popup)
    (skipCloseEvent : Bool) : MapService :=
  { s with popupsToRemove := s.popupsToRemove ++ [popup] }

/-- `removeImage(imageId)` (lines 428-430): `this.imageIdsToRemove.push(imageId)`. -/
def MapService.removeImage (s : MapService) (imageId : String) : MapService :=
  { s with imageIdsToRemove := s.imageIdsToRemove ++ [imageId] }

/-- `destroyMap()` (lines 145-148): `this.subscription.unsubscribe()` tears
down the `onMicrotaskEmpty → applyChanges` subscription (the queue arrays are
left untouched); `this.mapInstance.remove()` destroys the engine handle,
which is outside the queue model. -/
def MapService.destroyMap (s : MapService) : MapService :=
  { s with subscribed := false }

/-- A reentrant enqueue request: one of the five public removal methods,
as it could be invoked synchronously from inside an engine callback while a
flush is running. -/
inductive Enq where
  | layer (id : String)
  | source (id : String)
  | marker (m : Marker)
  | popup (p : Popup)
  | image (id : String)
deriving DecidableEq

/-- Dispatch a reentrant enqueue to the corresponding public method. -/
def MapService.applyEnq (s : MapService) : Enq → MapService
  | .layer id => s.removeLayer id
  | .source id => s.removeSource id
  | .marker m => s.removeMarker m
  | .popup p => s.removePopupFromMap p false
  | .image id => s.removeImage id

/-- Model of the mapbox-gl engine as seen by the queue: `fails c` says the
engine call `c` throws (e.g. `removeLayer` on an unknown id), and
`effects c` lists the reentrant enqueues that a successful call `c` triggers
synchronously (e.g. a popup close handler calling `removePopupFromMap`).
A throwing call triggers no enqueues. -/
structure Engine where
  fails : EngineCall → Bool
  effects : EngineCall → List Enq

/-- Run a straight-line sequence of engine calls (the body of one loop
iteration).  Returns the state after the reentrant enqueues of the
successful calls, the list of calls actually attempted (a throwing call is
attempted and then aborts), and `true` iff no call threw.  There is no
`try`/`catch` in `map.service.ts`, so a throw stops the sequence. -/
def runCalls (eng : Engine) (s : MapService) :
    List EngineCall → MapService × List EngineCall × Bool
  | [] => (s, [], true)
  | c :: rest =>
    if eng.fails c then (s, [c], false)
    else
      let r := runCalls eng ((eng.effects c).foldl MapService.applyEnq s) rest
      (r.1, c :: r.2.1, r.2.2)

/-- One kind of pending removal: how to read and write its array inside the
service state, and which engine calls tearing down one entry issues. -/
structure KindSpec (α : Type) where
  get : MapService → List α
  set : MapService → List α → MapService
  calls : α → List EngineCall

/-- The body of the `for...of` loop in `removeLayers` (lines 552-558): the
four `off` unbindings installed by `addLayer` (lines 267, 274, 281, 288) and
then `mapInstance.removeLayer`. -/
def layerCalls (layerId : String) : List EngineCall :=
  [.off "click" layerId, .off "mouseenter" layerId, .off "mouseleave" layerId,
   .off "mousemove" layerId, .removeLayer layerId]

/-- The layers kind: field `layerIdsToRemove`, teardown per `removeLayers`. -/
def layersKind : KindSpec String :=
  ⟨fun s => s.layerIdsToRemove, fun s l => { s with layerIdsToRemove := l },
   layerCalls⟩

/-- The body of one iteration of the loop in `removeSources`:
`mapInstance.removeSource` (line 564). -/
def sourceCalls (sourceId : String) : List EngineCall :=
  [.removeSource sourceId]

/-- The body of one iteration of the loop in `removeMarkers`:
`marker.remove()` (line 571). -/
def markerCalls (m : Marker) : List EngineCall :=
  [.markerRemove m]

/-- The body of one iteration of the loop in `removePopups`:
`popup.remove()` (line 578). -/
def popupCalls (p : Popup) : List EngineCall :=
  [.popupRemove p]

/-- The body of one iteration of the loop in `removeImages`:
`mapInstance.removeImage` (line 585). -/
def imageCalls (imageId : String) : List EngineCall :=
  [.removeImage imageId]

/-- The sources kind: field `sourceIdsToRemove`, teardown
`mapInstance.removeSource` (line 564). -/
def sourcesKind : KindSpec String :=
  ⟨fun s => s.sourceIdsToRemove, fun s l => { s with sourceIdsToRemove := l },
   sourceCalls⟩

/-- The markers kind: field `markersToRemove`, teardown `marker.remove()`
(line 571). -/
def markersKind : KindSpec Marker :=
  ⟨fun s => s.markersToRemove, fun s l => { s with markersToRemove := l },
   markerCalls⟩

/-- The popups kind: field `popupsToRemove`, teardown `popup.remove()`
(line 578). -/
def popupsKind : KindSpec Popup :=
  ⟨fun s => s.popupsToRemove, fun s l => { s with popupsToRemove := l },
   popupCalls⟩

/-- The images kind: field `imageIdsToRemove`, teardown
`mapInstance.removeImage` (line 585). -/
def imagesKind : KindSpec String :=
  ⟨fun s => s.imageIdsToRemove, fun s l => { s with imageIdsToRemove := l },
   imageCalls⟩

/-- The `for...of` loop of one private removal method, at cursor `i`.
JavaScript's array iterator reads the live array each step (`i < length`
then `arr[i]`), so entries pushed reentrantly during the loop are visited;
`fuel` bounds the number of iterations (the JS loop could run forever if
every teardown re-enqueued).  A throw aborts the loop (and skips the
trailing field reset), leaving the state as mutated so far. -/
def drainLoop (eng : Engine) (k : KindSpec α) :
    Nat → Nat → MapService → Option (MapService × List EngineCall × Bool)
  | 0, _, _ => none
  | fuel + 1, i, s =>
    match (k.get s).get? i with
    | none => some (s, [], true)
    | some e =>
      match runCalls eng s (k.calls e) with
      | (s1, tr, true) =>
        match drainLoop eng k fuel (i + 1) s1 with
        | none => none
        | some (s2, tr2, ok2) => some (s2, tr ++ tr2, ok2)
      | (s1, tr, false) => some (s1, tr, false)

/-- One private removal method: run the loop from index 0 and, only if it
finished without a throw, reassign the field to a fresh empty array
(`this.xxxToRemove = []`, lines 559, 566, 573, 580, 587). -/
def drainKind (eng : Engine) (k : KindSpec α) (fuel : Nat) (s : MapService) :
    Option (MapService × List EngineCall × Bool) :=
  match drainLoop eng k fuel 0 s with
  | none => none
  | some (s1, tr, true) => some (k.set s1 [], tr, true)
  | some (s1, tr, false) => some (s1, tr, false)

/-- `removeLayers()` (lines 551-560). -/
def removeLayers (eng : Engine) (fuel : Nat) (s : MapService) :
    Option (MapService × List EngineCall × Bool) :=
  drainKind eng layersKind fuel s

/-- `removeSources()` (lines 562-567). -/
def removeSources (eng : Engine) (fuel : Nat) (s : MapService) :
    Option (MapService × List EngineCall × Bool) :=
  drainKind eng sourcesKind fuel s

/-- `removeMarkers()` (lines 569-574). -/
def removeMarkers (eng : Engine) (fuel : Nat) (s : MapService) :
    Option (MapService × List EngineCall × Bool) :=
  drainKind eng markersKind fuel s

/-- `removePopups()` (lines 576-581). -/
def removePopups (eng : Engine) (fuel : Nat) (s : MapService) :
    Option (MapService × List EngineCall × Bool) :=
  drainKind eng popupsKind fuel s

/-- `removeImages()` (lines 583-588). -/
def removeImages (eng : Engine) (fuel : Nat) (s : MapService) :
    Option (MapService × List EngineCall × Bool) :=
  drainKind eng imagesKind fuel s

/-- Sequencing of two statements of `applyChanges`: if the first one threw,
the second never runs and the exception keeps propagating. -/
def andThen (r : Option (MapService × List EngineCall × Bool))
    (f : MapService → Option (MapService × List EngineCall × Bool)) :
    Option (MapService × List EngineCall × Bool) :=
  match r with
  | none => none
  | some (s, tr, true) =>
    match f s with
    | none => none
    | some (s2, tr2, ok2) => some (s2, tr ++ tr2, ok2)
  | some (s, tr, false) => some (s, tr, false)

/-- `applyChanges()` (lines 520-528): the five private removal methods in
the fixed order layers, sources, markers, popups, images.  The
`zone.runOutsideAngular` wrapper only changes the change-detection zone the
statements run in and neither catches exceptions nor reorders them. -/
def applyChanges (eng : Engine) (fuel : Nat) (s : MapService) :
    Option (MapService × List EngineCall × Bool) :=
  andThen (removeLayers eng fuel s) fun s1 =>
    andThen (removeSources eng fuel s1) fun s2 =>
      andThen (removeMarkers eng fuel s2) fun s3 =>
        andThen (removePopups eng fuel s3) fun s4 =>
          removeImages eng fuel s4

/-- One firing of `zone.onMicrotaskEmpty`: because `createMap` routed it
through `this.subscription` (lines 540-541, 548), it invokes `applyChanges`
only while that subscription is alive; after `destroyMap` it reaches no
handler at all, so no engine call is made. -/
def triggerFlush (eng : Engine) (fuel : Nat) (s : MapService) :
    Option (MapService × List EngineCall) :=
  if s.subscribed then
    match applyChanges eng fuel s with
    | none => none
    | some (s1, tr, _) => some (s1, tr)
  else some (s, [])

/-- `n` consecutive firings of the flush trigger, accumulating every engine
call made. -/
def triggerN (eng : Engine) (fuel : Nat) :
    Nat → MapService → Option (MapService × List EngineCall)
  | 0, s => some (s, [])
  | n + 1, s =>
    match triggerFlush eng fuel s with
    | none => none
    | some (s1, tr) =>
      match triggerN eng fuel n s1 with
      | none => none
      | some (s2, tr2) => some (s2, tr ++ tr2)

/-- The canonical full teardown trace of one flush of `s`: every pending
entry exactly once, kinds in the fixed order layers, sources, markers,
popups, images, insertion order within each kind. -/
def flushTrace (s : MapService) : List EngineCall :=
  s.layerIdsToRemove.flatMap layerCalls
    ++ s.sourceIdsToRemove.flatMap sourceCalls
    ++ s.markersToRemove.flatMap markerCalls
    ++ s.popupsToRemove.flatMap popupCalls
    ++ s.imageIdsToRemove.flatMap imageCalls

/-- `s` with all five pending arrays emptied (what a fully successful flush
leaves behind). -/
def drained (s : MapService) : MapService :=
  { s with layerIdsToRemove := [], sourceIdsToRemove := [],
           markersToRemove := [], popupsToRemove := [],
           imageIdsToRemove := [] }

/-- The engine neither throws on nor reacts reentrantly to any call in `cs`. -/
abbrev quietOn (eng : Engine) (cs : List EngineCall) : Prop :=
  ∀ c ∈ cs, eng.fails c = false ∧ eng.effects c = []

/-- No engine call triggers a reentrant enqueue. -/
def effectsTrivial (eng : Engine) : Prop :=
  ∀ c, eng.effects c = []

/-- No call in `tr` throws. -/
abbrev allOk (eng : Engine) (tr : List EngineCall) : Prop :=
  ∀ c ∈ tr, eng.fails c = false

/-- `tr` is a run that ended in a throw: a successful prefix followed by
exactly one throwing call. -/
def failShape (eng : Engine) (tr : List EngineCall) : Prop :=
  ∃ pre c, tr = pre ++ [c] ∧ eng.fails c = true ∧ allOk eng pre

/-- Trace contract of a flush fragment `r` with canonical call list `canon`:
on success the fragment attempted exactly `canon` and nothing threw; on an
escaped exception the attempted calls are an initial segment of `canon`
whose last call is the (first) throwing one. -/
def TraceInv (eng : Engine) (canon : List EngineCall)
    (r : Option (MapService × List EngineCall × Bool)) : Prop :=
  ∀ s1 tr ok, r = some (s1, tr, ok) →
    (ok = true → tr = canon ∧ allOk eng tr) ∧
    (ok = false → (∃ w, canon = tr ++ w) ∧ failShape eng tr)

/-- An engine that never throws and never reenters the service. -/
def quietEngine : Engine :=
  ⟨fun _ => false, fun _ => []⟩

/-- An engine that throws exactly on `removeLayer layerId` (an unknown or
already-removed layer id) and never reenters the service. -/
def failEngine (layerId : String) : Engine :=
  ⟨fun c => c = EngineCall.removeLayer layerId, fun _ => []⟩

/-- An engine whose `removeLayer layerId` teardown synchronously enqueues
`removeImage imageId` on the service (a reentrant enqueue aimed at a kind
drained later in the same flush); nothing throws. -/
def engEarly (layerId imageId : String) : Engine :=
  ⟨fun _ => false,
   fun c => if c = EngineCall.removeLayer layerId then [Enq.image imageId] else []⟩

/-- An engine whose `removeImage imageId` teardown synchronously enqueues
`removeLayer layerId` on the service (a reentrant enqueue aimed at a kind
already drained in the same flush); nothing throws. -/
def engLate (imageId layerId : String) : Engine :=
  ⟨fun _ => false,
   fun c => if c = EngineCall.removeImage imageId then [Enq.layer layerId] else []⟩

/-- An engine whose `removeLayer "l1"` teardown synchronously enqueues
`removeSource "s2"`; nothing throws.  Used to exhibit that the flush loops
iterate the live arrays rather than a snapshot. -/
def engReenter : Engine :=
  ⟨fun _ => false,
   fun c => if c = EngineCall.removeLayer "l1" then [Enq.source "s2"] else []⟩

/-- An engine that throws exactly on `removeImage imageId` and never
reenters the service. -/
def failImageEngine (imageId : String) : Engine :=
  ⟨fun c => c = EngineCall.removeImage imageId, fun _ => []⟩

/-! ### Helper lemmas -/

theorem flatMap_single {α β : Type} (l : List α) (f : α → β) :
    l.flatMap (fun a => [f a]) = l.map f := by
  induction l with
  | nil => rfl
  | cons a l ih => simp [ih]

theorem quietOn_mono {eng : Engine} {cs ds : List EngineCall}
    (hsub : cs ⊆ ds) (hq : quietOn eng ds) : quietOn eng cs :=
  fun c hc => hq c (hsub hc)

theorem runCalls_quiet (eng : Engine) (s : MapService) (cs : List EngineCall)
    (hq : quietOn eng cs) : runCalls eng s cs = (s, cs, true) := by
  induction cs with
  | nil => rfl
  | cons c rest ih =>
    have hc := hq c (List.mem_cons_self c rest)
    have hrest : quietOn eng rest := fun x hx => hq x (List.mem_cons_of_mem c hx)
    simp [runCalls, hc.1, hc.2, ih hrest]

theorem runCalls_spec (eng : Engine) (heff : effectsTrivial eng) :
    ∀ (cs : List EngineCall) (s s1 : MapService) (tr : List EngineCall) (ok : Bool),
      runCalls eng s cs = (s1, tr, ok) →
      s1 = s ∧
      (ok = true → tr = cs ∧ allOk eng cs) ∧
      (ok = false → (∃ w, cs = tr ++ w) ∧ failShape eng tr) := by
  intro cs
  induction cs with
  | nil =>
    intro s s1 tr ok h
    simp only [runCalls, Prod.mk.injEq] at h
    obtain ⟨hs, htr, hok⟩ := h
    subst hs; subst htr; subst hok
    exact ⟨rfl, fun _ => ⟨rfl, by intro c hc; simp at hc⟩, fun hf => by simp at hf⟩
  | cons c rest ih =>
    intro s s1 tr ok h
    by_cases hf : eng.fails c = true
    · simp only [runCalls, hf, if_true, Prod.mk.injEq] at h
      obtain ⟨hs, htr, hok⟩ := h
      subst hs; subst htr; subst hok
      refine ⟨rfl, fun ht => by simp at ht, fun _ => ⟨⟨rest, rfl⟩, [], c, rfl, hf, ?_⟩⟩
      intro x hx; simp at hx
    · have hf' : eng.fails c = false := by simpa using hf
      rcases hr : runCalls eng s rest with ⟨s2, tr2, ok2⟩
      have hfold : (eng.effects c).foldl MapService.applyEnq s = s := by
        rw [heff c]; rfl
      simp only [runCalls, hf', Bool.false_eq_true, if_false, hfold, hr,
        Prod.mk.injEq] at h
      obtain ⟨hs, htr, hok⟩ := h
      subst hs; subst htr; subst hok
      obtain ⟨ihs, iht, ihf⟩ := ih s s2 tr2 ok2 hr
      subst ihs
      refine ⟨rfl, ?_, ?_⟩
      · intro ht
        obtain ⟨e1, e2⟩ := iht ht
        subst e1
        exact ⟨rfl, by
          intro x hx
          rcases List.mem_cons.mp hx with h1 | h1
          · subst h1; exact hf'
          · exact e2 x h1⟩
      · intro hfk
        obtain ⟨⟨w, hw⟩, pre, d, he, hd, hpre⟩ := ihf hfk
        refine ⟨⟨w, by simp [hw]⟩, c :: pre, d, by simp [he], hd, ?_⟩
        intro x hx
        rcases List.mem_cons.mp hx with h1 | h1
        · subst h1; exact hf'
        · exact hpre x h1

theorem drainLoop_quiet {α : Type} (eng : Engine) (k : KindSpec α) :
    ∀ (fuel i : Nat) (s : MapService),
      quietOn eng (((k.get s).drop i).flatMap k.calls) →
      (k.get s).length - i < fuel →
      drainLoop eng k fuel i s =
        some (s, ((k.get s).drop i).flatMap k.calls, true) := by
  intro fuel
  induction fuel with
  | zero => intro i s _ hlen; exact absurd hlen (by omega)
  | succ fuel ih =>
    intro i s hq hlen
    by_cases h : i < (k.get s).length
    · have hget : (k.get s).get? i = some ((k.get s).get ⟨i, h⟩) :=
        List.get?_eq_get h
      have hdrop : (k.get s).drop i =
          (k.get s).get ⟨i, h⟩ :: (k.get s).drop (i + 1) :=
        List.drop_eq_get_cons h
      have hsplit : ((k.get s).drop i).flatMap k.calls =
          k.calls ((k.get s).get ⟨i, h⟩) ++
            ((k.get s).drop (i + 1)).flatMap k.calls := by
        rw [hdrop, List.flatMap_cons]
      have hqe : quietOn eng (k.calls ((k.get s).get ⟨i, h⟩)) := by
        apply quietOn_mono _ hq
        rw [hsplit]; exact List.subset_append_left _ _
      have hqrest : quietOn eng (((k.get s).drop (i + 1)).flatMap k.calls) := by
        apply quietOn_mono _ hq
        rw [hsplit]; exact List.subset_append_right _ _
      have hrun := runCalls_quiet eng s _ hqe
      have hrec := ih (i + 1) s hqrest (by omega)
      simp only [drainLoop, hget, hrun, hrec]
      rw [hsplit]
    · have hge : (k.get s).length ≤ i := Nat.le_of_not_lt h
      have hget : (k.get s).get? i = none := by
        rw [List.get?_eq_none]; exact hge
      have hdrop : (k.get s).drop i = [] := List.drop_eq_nil_of_le hge
      simp only [drainLoop, hget, hdrop, List.flatMap_nil]

theorem drainKind_quiet {α : Type} (eng : Engine) (k : KindSpec α)
    (fuel : Nat) (s : MapService)
    (hq : quietOn eng ((k.get s).flatMap k.calls))
    (hlen : (k.get s).length < fuel) :
    drainKind eng k fuel s = some (k.set s [], (k.get s).flatMap k.calls, true) := by
  have h0 := drainLoop_quiet eng k fuel 0 s (by simpa using hq) (by omega)
  simp only [drainKind, h0, List.drop_zero]

theorem drainLoop_spec {α : Type} (eng : Engine) (k : KindSpec α)
    (heff : effectsTrivial eng) :
    ∀ (fuel i : Nat) (s s1 : MapService) (tr : List EngineCall) (ok : Bool),
      drainLoop eng k fuel i s = some (s1, tr, ok) →
      s1 = s ∧
      (ok = true → tr = ((k.get s).drop i).flatMap k.calls ∧ allOk eng tr) ∧
      (ok = false →
        (∃ w, ((k.get s).drop i).flatMap k.calls = tr ++ w) ∧ failShape eng tr) := by
  intro fuel
  induction fuel with
  | zero => intro i s s1 tr ok h; simp [drainLoop] at h
  | succ fuel ih =>
    intro i s s1 tr ok h
    rcases hget : (k.get s).get? i with _ | e
    · have hdrop : (k.get s).drop i = [] :=
        List.drop_eq_nil_of_le (by rw [← List.get?_eq_none]; exact hget)
      simp only [drainLoop, hget, Option.some.injEq, Prod.mk.injEq] at h
      obtain ⟨hs, htr, hok⟩ := h
      subst hs; subst htr; subst hok
      refine ⟨rfl, fun _ => ⟨by simp [hdrop], by intro c hc; simp at hc⟩,
        fun hfk => by simp at hfk⟩
    · obtain ⟨hi, hie⟩ := List.get?_eq_some.mp hget
      have hdrop : (k.get s).drop i = e :: (k.get s).drop (i + 1) := by
        rw [List.drop_eq_get_cons hi, hie]
      have hsplit : ((k.get s).drop i).flatMap k.calls =
          k.calls e ++ ((k.get s).drop (i + 1)).flatMap k.calls := by
        rw [hdrop, List.flatMap_cons]
      rcases hrun : runCalls eng s (k.calls e) with ⟨sR, trR, okR⟩
      obtain ⟨hRs, hRt, hRf⟩ := runCalls_spec eng heff (k.calls e) s sR trR okR hrun
      rw [hRs] at hrun
      cases okR with
      | true =>
        obtain ⟨hTr, hTok⟩ := hRt rfl
        subst hTr
        rcases hrec : drainLoop eng k fuel (i + 1) s with _ | r
        · simp only [drainLoop, hget, hrun, hrec] at h
          exact Option.noConfusion h
        · rcases r with ⟨s2, tr2, ok2⟩
          obtain ⟨h2s, h2t, h2f⟩ := ih (i + 1) s s2 tr2 ok2 hrec
          subst h2s
          simp only [drainLoop, hget, hrun, hrec, Option.some.injEq,
            Prod.mk.injEq] at h
          obtain ⟨hs, htr, hok⟩ := h
          subst hs; subst htr; subst hok
          refine ⟨rfl, ?_, ?_⟩
          · intro ht
            obtain ⟨e1, e2⟩ := h2t ht
            subst e1
            refine ⟨hsplit.symm, ?_⟩
            intro c hc
            rcases List.mem_append.mp hc with h1 | h1
            · exact hTok c h1
            · exact e2 c h1
          · intro hfk
            obtain ⟨⟨w, hw⟩, pre, d, he, hd, hpre⟩ := h2f hfk
            refine ⟨⟨w, by rw [hsplit, hw, List.append_assoc]⟩,
              k.calls e ++ pre, d, by rw [he, List.append_assoc], hd, ?_⟩
            intro c hc
            rcases List.mem_append.mp hc with h1 | h1
            · exact hTok c h1
            · exact hpre c h1
      | false =>
        simp only [drainLoop, hget, hrun, Option.some.injEq, Prod.mk.injEq] at h
        obtain ⟨hs, htr, hok⟩ := h
        subst hs; subst htr; subst hok
        obtain ⟨⟨w, hw⟩, hshape⟩ := hRf rfl
        refine ⟨rfl, fun ht => by simp at ht, fun _ => ?_⟩
        exact ⟨⟨w ++ ((k.get s).drop (i + 1)).flatMap k.calls,
          by rw [hsplit, hw, List.append_assoc]⟩, hshape⟩

theorem drainKind_spec {α : Type} (eng : Engine) (k : KindSpec α)
    (heff : effectsTrivial eng) (fuel : Nat) (s s1 : MapService)
    (tr : List EngineCall) (ok : Bool)
    (h : drainKind eng k fuel s = some (s1, tr, ok)) :
    (ok = true → s1 = k.set s [] ∧ tr = (k.get s).flatMap k.calls ∧ allOk eng tr) ∧
    (ok = false →
      s1 = s ∧ (∃ w, (k.get s).flatMap k.calls = tr ++ w) ∧ failShape eng tr) := by
  rcases hloop : drainLoop eng k fuel 0 s with _ | r
  · rw [drainKind, hloop] at h; exact absurd h (by simp)
  · rcases r with ⟨s2, tr2, ok2⟩
    obtain ⟨h2s, h2t, h2f⟩ := drainLoop_spec eng k heff fuel 0 s s2 tr2 ok2 hloop
    subst h2s
    cases ok2 with
    | true =>
      rw [drainKind, hloop] at h
      simp only [Option.some.injEq, Prod.mk.injEq] at h
      obtain ⟨hs, htr, hok⟩ := h
      subst hs; subst htr; subst hok
      obtain ⟨e1, e2⟩ := h2t rfl
      refine ⟨fun _ => ⟨rfl, by simpa using e1, e2⟩, fun hfk => by simp at hfk⟩
    | false =>
      rw [drainKind, hloop] at h
      simp only [Option.some.injEq, Prod.mk.injEq] at h
      obtain ⟨hs, htr, hok⟩ := h
      subst hs; subst htr; subst hok
      obtain ⟨⟨w, hw⟩, hshape⟩ := h2f rfl
      exact ⟨fun ht => by simp at ht,
        fun _ => ⟨rfl, ⟨w, by simpa using hw⟩, hshape⟩⟩

theorem applyChanges_quiet (eng : Engine) (fuel : Nat) (s : MapService)
    (hq : quietOn eng (flushTrace s))
    (h1 : s.layerIdsToRemove.length < fuel)
    (h2 : s.sourceIdsToRemove.length < fuel)
    (h3 : s.markersToRemove.length < fuel)
    (h4 : s.popupsToRemove.length < fuel)
    (h5 : s.imageIdsToRemove.length < fuel) :
    applyChanges eng fuel s = some (drained s, flushTrace s, true) := by
  have hqL : quietOn eng (s.layerIdsToRemove.flatMap layerCalls) :=
    quietOn_mono (fun c hc => by simp only [flushTrace, List.mem_append]; tauto) hq
  have hqS : quietOn eng (s.sourceIdsToRemove.flatMap sourceCalls) :=
    quietOn_mono (fun c hc => by simp only [flushTrace, List.mem_append]; tauto) hq
  have hqM : quietOn eng (s.markersToRemove.flatMap markerCalls) :=
    quietOn_mono (fun c hc => by simp only [flushTrace, List.mem_append]; tauto) hq
  have hqP : quietOn eng (s.popupsToRemove.flatMap popupCalls) :=
    quietOn_mono (fun c hc => by simp only [flushTrace, List.mem_append]; tauto) hq
  have hqI : quietOn eng (s.imageIdsToRemove.flatMap imageCalls) :=
    quietOn_mono (fun c hc => by simp only [flushTrace, List.mem_append]; tauto) hq
  have dL : removeLayers eng fuel s =
      some ({ s with layerIdsToRemove := [] },
        s.layerIdsToRemove.flatMap layerCalls, true) :=
    drainKind_quiet eng layersKind fuel s hqL h1
  have dS : removeSources eng fuel { s with layerIdsToRemove := [] } =
      some ({ s with layerIdsToRemove := [], sourceIdsToRemove := [] },
        s.sourceIdsToRemove.flatMap sourceCalls, true) :=
    drainKind_quiet eng sourcesKind fuel _ hqS h2
  have dM : removeMarkers eng fuel { s with layerIdsToRemove := [], sourceIdsToRemove := [] } =
      some ({ s with layerIdsToRemove := [], sourceIdsToRemove := [], markersToRemove := [] },
        s.markersToRemove.flatMap markerCalls, true) :=
    drainKind_quiet eng markersKind fuel _ hqM h3
  have dP : removePopups eng fuel { s with layerIdsToRemove := [], sourceIdsToRemove := [], markersToRemove := [] } =
      some ({ s with layerIdsToRemove := [], sourceIdsToRemove := [], markersToRemove := [], popupsToRemove := [] },
        s.popupsToRemove.flatMap popupCalls, true) :=
    drainKind_quiet eng popupsKind fuel _ hqP h4
  have dI : removeImages eng fuel { s with layerIdsToRemove := [], sourceIdsToRemove := [], markersToRemove := [], popupsToRemove := [] } =
      some (drained s, s.imageIdsToRemove.flatMap imageCalls, true) :=
    drainKind_quiet eng imagesKind fuel _ hqI h5
  rw [applyChanges, dL]
  simp only [andThen]
  rw [dS]
  simp only [andThen]
  rw [dM]
  simp only [andThen]
  rw [dP]
  simp only [andThen]
  rw [dI]
  simp only [flushTrace, List.append_assoc]

@[simp] theorem layersKind_get (s : MapService) :
    layersKind.get s = s.layerIdsToRemove := rfl

@[simp] theorem layersKind_set (s : MapService) (l : List String) :
    layersKind.set s l = { s with layerIdsToRemove := l } := rfl

@[simp] theorem layersKind_calls : layersKind.calls = layerCalls := rfl

@[simp] theorem sourcesKind_get (s : MapService) :
    sourcesKind.get s = s.sourceIdsToRemove := rfl

@[simp] theorem sourcesKind_set (s : MapService) (l : List String) :
    sourcesKind.set s l = { s with sourceIdsToRemove := l } := rfl

@[simp] theorem sourcesKind_calls : sourcesKind.calls = sourceCalls := rfl

@[simp] theorem markersKind_get (s : MapService) :
    markersKind.get s = s.markersToRemove := rfl

@[simp] theorem markersKind_set (s : MapService) (l : List Marker) :
    markersKind.set s l = { s with markersToRemove := l } := rfl

@[simp] theorem markersKind_calls : markersKind.calls = markerCalls := rfl

@[simp] theorem popupsKind_get (s : MapService) :
    popupsKind.get s = s.popupsToRemove := rfl

@[simp] theorem popupsKind_set (s : MapService) (l : List Popup) :
    popupsKind.set s l = { s with popupsToRemove := l } := rfl

@[simp] theorem popupsKind_calls : popupsKind.calls = popupCalls := rfl

@[simp] theorem imagesKind_get (s : MapService) :
    imagesKind.get s = s.imageIdsToRemove := rfl

@[simp] theorem imagesKind_set (s : MapService) (l : List String) :
    imagesKind.set s l = { s with imageIdsToRemove := l } := rfl

@[simp] theorem imagesKind_calls : imagesKind.calls = imageCalls := rfl

theorem traceInv_andThen {eng : Engine} {c1 c2 : List EngineCall}
    {r : Option (MapService × List EngineCall × Bool)}
    {f : MapService → Option (MapService × List EngineCall × Bool)}
    (h1 : TraceInv eng c1 r)
    (h2 : ∀ sA trA, r = some (sA, trA, true) → TraceInv eng c2 (f sA)) :
    TraceInv eng (c1 ++ c2) (andThen r f) := by
  intro s1 tr ok h
  rcases hr : r with _ | rA
  · rw [hr, andThen] at h; exact Option.noConfusion h
  · rcases rA with ⟨sA, trA, okA⟩
    cases okA with
    | false =>
      rw [hr] at h
      simp only [andThen, Option.some.injEq, Prod.mk.injEq] at h
      obtain ⟨hs, htr, hok⟩ := h
      subst htr; subst hok
      obtain ⟨⟨w, hw⟩, hshape⟩ := ((h1 sA trA false hr).2) rfl
      refine ⟨fun ht => by simp at ht, fun _ => ?_⟩
      exact ⟨⟨w ++ c2, by rw [hw, List.append_assoc]⟩, hshape⟩
    | true =>
      obtain ⟨hAt, hAok⟩ := ((h1 sA trA true hr).1) rfl
      rcases hf : f sA with _ | rB
      · rw [hr] at h
        simp only [andThen, hf] at h
        exact Option.noConfusion h
      · rcases rB with ⟨sB, trB, okB⟩
        rw [hr] at h
        simp only [andThen, hf, Option.some.injEq, Prod.mk.injEq] at h
        obtain ⟨hs, htr, hok⟩ := h
        subst htr; subst hok
        have hinv := h2 sA trA hr sB trB okB hf
        cases okB with
        | true =>
          obtain ⟨hBt, hBok⟩ := hinv.1 rfl
          refine ⟨fun _ => ⟨by rw [hAt, hBt], ?_⟩, fun hfk => by simp at hfk⟩
          intro c hc
          rcases List.mem_append.mp hc with hm | hm
          · exact hAok c hm
          · exact hBok c hm
        | false =>
          obtain ⟨⟨w, hw⟩, pre, d, he, hd, hpre⟩ := hinv.2 rfl
          refine ⟨fun ht => by simp at ht, fun _ => ?_⟩
          refine ⟨⟨w, ?_⟩, trA ++ pre, d, ?_, hd, ?_⟩
          · rw [hw, ← hAt]; simp [List.append_assoc]
          · rw [he]; simp [List.append_assoc]
          · intro c hc
            rcases List.mem_append.mp hc with hm | hm
            · exact hAok c hm
            · exact hpre c hm

theorem traceInv_drainKind {α : Type} (eng : Engine) (heff : effectsTrivial eng)
    (k : KindSpec α) (fuel : Nat) (s : MapService) :
    TraceInv eng ((k.get s).flatMap k.calls) (drainKind eng k fuel s) := by
  intro s1 tr ok h
  obtain ⟨ht, hf⟩ := drainKind_spec eng k heff fuel s s1 tr ok h
  exact ⟨fun hok => ((ht hok).2), fun hok => ((hf hok).2)⟩

theorem traceInv_applyChanges (eng : Engine) (heff : effectsTrivial eng)
    (fuel : Nat) (s : MapService) :
    TraceInv eng (flushTrace s) (applyChanges eng fuel s) := by
  have hassoc : flushTrace s =
      s.layerIdsToRemove.flatMap layerCalls ++
        (s.sourceIdsToRemove.flatMap sourceCalls ++
          (s.markersToRemove.flatMap markerCalls ++
            (s.popupsToRemove.flatMap popupCalls ++
              s.imageIdsToRemove.flatMap imageCalls))) := by
    simp [flushTrace, List.append_assoc]
  rw [hassoc, applyChanges]
  apply traceInv_andThen (traceInv_drainKind eng heff layersKind fuel s)
  intro sA trA hA
  have hAstate : sA = { s with layerIdsToRemove := [] } := by
    have := (drainKind_spec eng layersKind heff fuel s sA trA true hA).1 rfl
    simpa using this.1
  subst hAstate
  apply traceInv_andThen (traceInv_drainKind eng heff sourcesKind fuel _)
  intro sB trB hB
  have hBstate : sB = { s with layerIdsToRemove := [], sourceIdsToRemove := [] } := by
    have := (drainKind_spec eng sourcesKind heff fuel _ sB trB true hB).1 rfl
    simpa using this.1
  subst hBstate
  apply traceInv_andThen (traceInv_drainKind eng heff markersKind fuel _)
  intro sC trC hC
  have hCstate : sC = { s with layerIdsToRemove := [], sourceIdsToRemove := [], markersToRemove := [] } := by
    have := (drainKind_spec eng markersKind heff fuel _ sC trC true hC).1 rfl
    simpa using this.1
  subst hCstate
  apply traceInv_andThen (traceInv_drainKind eng heff popupsKind fuel _)
  intro sD trD hD
  have hDstate : sD = { s with layerIdsToRemove := [], sourceIdsToRemove := [], markersToRemove := [], popupsToRemove := [] } := by
    have := (drainKind_spec eng popupsKind heff fuel _ sD trD true hD).1 rfl
    simpa using this.1
  subst hDstate
  exact traceInv_drainKind eng heff imagesKind fuel _

theorem drainKind_fail_mem {α : Type} (eng : Engine) (heff : effectsTrivial eng)
    (k : KindSpec α) (fuel : Nat) (sIn sOut : MapService) (tK : List EngineCall)
    (h : drainKind eng k fuel sIn = some (sOut, tK, false)) :
    sOut = sIn ∧ ∃ c, eng.fails c = true ∧ c ∈ (k.get sIn).flatMap k.calls := by
  obtain ⟨-, hf⟩ := drainKind_spec eng k heff fuel sIn sOut tK false h
  obtain ⟨hs, ⟨w, hw⟩, pre, d, he, hd, -⟩ := hf rfl
  refine ⟨hs, d, hd, ?_⟩
  rw [hw, he]
  simp

theorem drainKind_success_state {α : Type} (eng : Engine)
    (heff : effectsTrivial eng) (k : KindSpec α) (fuel : Nat)
    (sIn sOut : MapService) (tK : List EngineCall)
    (h : drainKind eng k fuel sIn = some (sOut, tK, true)) :
    sOut = k.set sIn [] :=
  ((drainKind_spec eng k heff fuel sIn sOut tK true h).1 rfl).1

theorem applyChanges_cases (eng : Engine) (heff : effectsTrivial eng)
    (fuel : Nat) (s s1 : MapService) (tr : List EngineCall) (ok : Bool)
    (h : applyChanges eng fuel s = some (s1, tr, ok)) :
    (ok = true ∧ s1 = drained s) ∨
    (ok = false ∧ ∃ c, eng.fails c = true ∧
      ((s1 = s ∧ c ∈ s.layerIdsToRemove.flatMap layerCalls) ∨
       (s1 = { s with layerIdsToRemove := [] } ∧
         c ∈ s.sourceIdsToRemove.flatMap sourceCalls) ∨
       (s1 = { s with layerIdsToRemove := [], sourceIdsToRemove := [] } ∧
         c ∈ s.markersToRemove.flatMap markerCalls) ∨
       (s1 = { s with layerIdsToRemove := [], sourceIdsToRemove := [], markersToRemove := [] } ∧
         c ∈ s.popupsToRemove.flatMap popupCalls) ∨
       (s1 = { s with layerIdsToRemove := [], sourceIdsToRemove := [], markersToRemove := [], popupsToRemove := [] } ∧
         c ∈ s.imageIdsToRemove.flatMap imageCalls))) := by
  rw [applyChanges] at h
  rcases hL : removeLayers eng fuel s with _ | ⟨sL, tL, okL⟩
  · rw [hL] at h; simp [andThen] at h
  · rw [hL] at h
    cases okL with
    | false =>
      simp only [andThen, Option.some.injEq, Prod.mk.injEq] at h
      obtain ⟨hs, htr, hok⟩ := h
      obtain ⟨hstate, c, hc, hmem⟩ := drainKind_fail_mem eng heff layersKind fuel s sL tL hL
      right
      exact ⟨hok.symm, c, hc, Or.inl ⟨hs ▸ hstate, by simpa using hmem⟩⟩
    | true =>
      have hsL : sL = { s with layerIdsToRemove := [] } := by
        simpa using drainKind_success_state eng heff layersKind fuel s sL tL hL
      subst hsL
      simp only [andThen] at h
      rcases hS : removeSources eng fuel { s with layerIdsToRemove := [] } with _ | ⟨sS, tS, okS⟩
      · rw [hS] at h; simp [andThen] at h
      · rw [hS] at h
        cases okS with
        | false =>
          simp only [andThen, Option.some.injEq, Prod.mk.injEq] at h
          obtain ⟨hs, htr, hok⟩ := h
          obtain ⟨hstate, c, hc, hmem⟩ :=
            drainKind_fail_mem eng heff sourcesKind fuel _ sS tS hS
          right
          exact ⟨hok.symm, c, hc, Or.inr (Or.inl ⟨hs ▸ hstate, by simpa using hmem⟩)⟩
        | true =>
          have hsS : sS = { s with layerIdsToRemove := [], sourceIdsToRemove := [] } := by
            simpa using drainKind_success_state eng heff sourcesKind fuel _ sS tS hS
          subst hsS
          simp only [andThen] at h
          rcases hM : removeMarkers eng fuel { s with layerIdsToRemove := [], sourceIdsToRemove := [] } with _ | ⟨sM, tM, okM⟩
          · rw [hM] at h; simp [andThen] at h
          · rw [hM] at h
            cases okM with
            | false =>
              simp only [andThen, Option.some.injEq, Prod.mk.injEq] at h
              obtain ⟨hs, htr, hok⟩ := h
              obtain ⟨hstate, c, hc, hmem⟩ :=
                drainKind_fail_mem eng heff markersKind fuel _ sM tM hM
              right
              exact ⟨hok.symm, c, hc,
                Or.inr (Or.inr (Or.inl ⟨hs ▸ hstate, by simpa using hmem⟩))⟩
            | true =>
              have hsM : sM = { s with layerIdsToRemove := [], sourceIdsToRemove := [], markersToRemove := [] } := by
                simpa using drainKind_success_state eng heff markersKind fuel _ sM tM hM
              subst hsM
              simp only [andThen] at h
              rcases hP : removePopups eng fuel { s with layerIdsToRemove := [], sourceIdsToRemove := [], markersToRemove := [] } with _ | ⟨sP, tP, okP⟩
              · rw [hP] at h; simp [andThen] at h
              · rw [hP] at h
                cases okP with
                | false =>
                  simp only [andThen, Option.some.injEq, Prod.mk.injEq] at h
                  obtain ⟨hs, htr, hok⟩ := h
                  obtain ⟨hstate, c, hc, hmem⟩ :=
                    drainKind_fail_mem eng heff popupsKind fuel _ sP tP hP
                  right
                  exact ⟨hok.symm, c, hc,
                    Or.inr (Or.inr (Or.inr (Or.inl ⟨hs ▸ hstate, by simpa using hmem⟩)))⟩
                | true =>
                  have hsP : sP = { s with layerIdsToRemove := [], sourceIdsToRemove := [], markersToRemove := [], popupsToRemove := [] } := by
                    simpa using drainKind_success_state eng heff popupsKind fuel _ sP tP hP
                  subst hsP
                  simp only [andThen] at h
                  rcases hI : removeImages eng fuel { s with layerIdsToRemove := [], sourceIdsToRemove := [], markersToRemove := [], popupsToRemove := [] } with _ | ⟨sI, tI, okI⟩
                  · rw [hI] at h; simp at h
                  · rw [hI] at h
                    cases okI with
                    | false =>
                      simp only [Option.some.injEq, Prod.mk.injEq] at h
                      obtain ⟨hs, htr, hok⟩ := h
                      obtain ⟨hstate, c, hc, hmem⟩ :=
                        drainKind_fail_mem eng heff imagesKind fuel _ sI tI hI
                      right
                      exact ⟨hok.symm, c, hc,
                        Or.inr (Or.inr (Or.inr (Or.inr ⟨hs ▸ hstate, by simpa using hmem⟩)))⟩
                    | true =>
                      have hsI : sI = drained s := by
                        have := drainKind_success_state eng heff imagesKind fuel _ sI tI hI
                        simpa [drained] using this
                      simp only [Option.some.injEq, Prod.mk.injEq] at h
                      obtain ⟨hs, htr, hok⟩ := h
                      exact Or.inl ⟨hok.symm, hs ▸ hsI⟩

theorem drainKind_singleton {α : Type} (eng : Engine) (k : KindSpec α)
    (fuel : Nat) (s s1 : MapService) (e : α) (tcalls : List EngineCall)
    (hget : k.get s = [e])
    (hrun : runCalls eng s (k.calls e) = (s1, tcalls, true))
    (hget1 : k.get s1 = [e])
    (hfuel : 2 ≤ fuel) :
    drainKind eng k fuel s = some (k.set s1 [], tcalls, true) := by
  obtain ⟨f, rfl⟩ : ∃ f, fuel = f + 2 := ⟨fuel - 2, by omega⟩
  have h0 : (k.get s).get? 0 = some e := by rw [hget]; rfl
  have h1 : (k.get s1).get? 1 = none := by rw [hget1]; rfl
  simp only [drainKind, drainLoop, h0, hrun, Nat.zero_add, h1]
  simp

theorem engEarly_effects_ne (l img : String) (c : EngineCall)
    (hne : c ≠ EngineCall.removeLayer l) : (engEarly l img).effects c = [] := by
  simp [engEarly, hne]

theorem engLate_effects_ne (img lX : String) (c : EngineCall)
    (hne : c ≠ EngineCall.removeImage img) : (engLate img lX).effects c = [] := by
  simp [engLate, hne]

theorem runCalls_engEarly (l img : String) (s : MapService) :
    runCalls (engEarly l img) s (layerCalls l) =
      (s.removeImage img, layerCalls l, true) := by
  simp [runCalls, layerCalls, engEarly, MapService.applyEnq]

theorem runCalls_engLate (img lX : String) (s : MapService) :
    runCalls (engLate img lX) s (imageCalls img) =
      (s.removeLayer lX, imageCalls img, true) := by
  simp [runCalls, imageCalls, engLate, MapService.applyEnq]

/-! ### Claim theorems -/

/-- C1: for every queue state reached by enqueue calls between two flushes,
if no teardown throws and no teardown reentrantly enqueues, a single
`applyChanges` performs exactly one teardown per enqueued entry, in the
fixed kind order layers, sources, markers, popups, images, and in strict
insertion order within each kind: its engine-call trace is exactly
`flushTrace s`. -/
theorem flush_exactly_once_in_order (eng : Engine) (fuel : Nat)
    (s : MapService) (hq : quietOn eng (flushTrace s))
    (h1 : s.layerIdsToRemove.length < fuel)
    (h2 : s.sourceIdsToRemove.length < fuel)
    (h3 : s.markersToRemove.length < fuel)
    (h4 : s.popupsToRemove.length < fuel)
    (h5 : s.imageIdsToRemove.length < fuel) :
    applyChanges eng fuel s = some (drained s, flushTrace s, true) :=
  applyChanges_quiet eng fuel s hq h1 h2 h3 h4 h5

/-- Witness for C1: the l1, l2, s1, m1, p1, i1 scenario flushes in the
canonical order. -/
theorem flush_exactly_once_in_order_witness :
    applyChanges quietEngine 3 ⟨["l1", "l2"], ["s1"], [1], [2], ["i1"], true⟩ =
      some (⟨[], [], [], [], [], true⟩,
        [.off "click" "l1", .off "mouseenter" "l1", .off "mouseleave" "l1",
         .off "mousemove" "l1", .removeLayer "l1",
         .off "click" "l2", .off "mouseenter" "l2", .off "mouseleave" "l2",
         .off "mousemove" "l2", .removeLayer "l2",
         .removeSource "s1", .markerRemove 1, .popupRemove 2,
         .removeImage "i1"], true) :=
  flush_exactly_once_in_order quietEngine 3
    ⟨["l1", "l2"], ["s1"], [1], [2], ["i1"], true⟩
    (fun c _ => ⟨rfl, rfl⟩) (by decide) (by decide) (by decide) (by decide)
    (by decide)

/-- C4: once `destroyMap` has run (with any entries still pending), every
subsequent firing of the flush trigger performs zero engine calls and never
touches the pending entries again: the unsubscribed trigger is inert for any
number of firings, any engine, and any fuel. -/
theorem destroyed_map_flush_silent (eng : Engine) (fuel n : Nat)
    (s : MapService) :
    triggerN eng fuel n s.destroyMap = some (s.destroyMap, []) := by
  induction n with
  | zero => rfl
  | succ n ih =>
    have ht : triggerFlush eng fuel s.destroyMap = some (s.destroyMap, []) := by
      simp [triggerFlush, MapService.destroyMap]
    simp [triggerN, ht, ih]

/-- C8: flushing with all five sequences empty is a no-op — zero engine
calls, state unchanged, no exception — for any engine whatsoever; in
particular the second of two back-to-back quiet flushes does nothing. -/
theorem flush_empty_noop (eng : Engine) (fuel : Nat) (s : MapService)
    (hfuel : 0 < fuel)
    (h1 : s.layerIdsToRemove = []) (h2 : s.sourceIdsToRemove = [])
    (h3 : s.markersToRemove = []) (h4 : s.popupsToRemove = [])
    (h5 : s.imageIdsToRemove = []) :
    applyChanges eng fuel s = some (s, [], true) := by
  have ht : flushTrace s = [] := by simp [flushTrace, h1, h2, h3, h4, h5]
  have hs : drained s = s := by
    cases s
    simp only [drained] at h1 h2 h3 h4 h5 ⊢
    simp_all
  have happ := applyChanges_quiet eng fuel s
    (by rw [ht]; intro c hc; simp at hc)
    (by simp only [h1, List.length_nil]; exact hfuel)
    (by simp only [h2, List.length_nil]; exact hfuel)
    (by simp only [h3, List.length_nil]; exact hfuel)
    (by simp only [h4, List.length_nil]; exact hfuel)
    (by simp only [h5, List.length_nil]; exact hfuel)
  rw [hs, ht] at happ
  exact happ

/-- Witness for C8: flushing the freshly constructed service does nothing. -/
theorem flush_empty_noop_witness :
    applyChanges quietEngine 1 MapService.init =
      some (MapService.init, [], true) :=
  flush_empty_noop quietEngine 1 MapService.init (by decide) rfl rfl rfl rfl rfl

/-- C10: each removal-enqueue method appends only to the array of its own
kind and leaves the other four pending arrays unchanged. -/
theorem enqueue_frame_own_kind_only (s : MapService)
    (layerId sourceId imageId : String) (m : Marker) (p : Popup)
    (skip : Bool) :
    ((s.removeLayer layerId).layerIdsToRemove = s.layerIdsToRemove ++ [layerId] ∧
      (s.removeLayer layerId).sourceIdsToRemove = s.sourceIdsToRemove ∧
      (s.removeLayer layerId).markersToRemove = s.markersToRemove ∧
      (s.removeLayer layerId).popupsToRemove = s.popupsToRemove ∧
      (s.removeLayer layerId).imageIdsToRemove = s.imageIdsToRemove) ∧
    ((s.removeSource sourceId).sourceIdsToRemove = s.sourceIdsToRemove ++ [sourceId] ∧
      (s.removeSource sourceId).layerIdsToRemove = s.layerIdsToRemove ∧
      (s.removeSource sourceId).markersToRemove = s.markersToRemove ∧
      (s.removeSource sourceId).popupsToRemove = s.popupsToRemove ∧
      (s.removeSource sourceId).imageIdsToRemove = s.imageIdsToRemove) ∧
    ((s.removeMarker m).markersToRemove = s.markersToRemove ++ [m] ∧
      (s.removeMarker m).layerIdsToRemove = s.layerIdsToRemove ∧
      (s.removeMarker m).sourceIdsToRemove = s.sourceIdsToRemove ∧
      (s.removeMarker m).popupsToRemove = s.popupsToRemove ∧
      (s.removeMarker m).imageIdsToRemove = s.imageIdsToRemove) ∧
    ((s.removePopupFromMap p skip).popupsToRemove = s.popupsToRemove ++ [p] ∧
      (s.removePopupFromMap p skip).layerIdsToRemove = s.layerIdsToRemove ∧
      (s.removePopupFromMap p skip).sourceIdsToRemove = s.sourceIdsToRemove ∧
      (s.removePopupFromMap p skip).markersToRemove = s.markersToRemove ∧
      (s.removePopupFromMap p skip).imageIdsToRemove = s.imageIdsToRemove) ∧
    ((s.removeImage imageId).imageIdsToRemove = s.imageIdsToRemove ++ [imageId] ∧
      (s.removeImage imageId).layerIdsToRemove = s.layerIdsToRemove ∧
      (s.removeImage imageId).sourceIdsToRemove = s.sourceIdsToRemove ∧
      (s.removeImage imageId).markersToRemove = s.markersToRemove ∧
      (s.removeImage imageId).popupsToRemove = s.popupsToRemove) :=
  ⟨⟨rfl, rfl, rfl, rfl, rfl⟩, ⟨rfl, rfl, rfl, rfl, rfl⟩,
   ⟨rfl, rfl, rfl, rfl, rfl⟩, ⟨rfl, rfl, rfl, rfl, rfl⟩,
   ⟨rfl, rfl, rfl, rfl, rfl⟩⟩

/-- C2 is false on the code: with layers l1, l2 and source s1 pending and an
engine whose `removeLayer "l1"` throws, the flush is aborted by the uncaught
exception — l2 is never torn down, s1 is never torn down, and the `false`
flag records that the exception escaped `applyChanges` instead of being
caught. -/
theorem flush_failure_not_caught_counterexample :
    applyChanges (failEngine "l1") 5 ⟨["l1", "l2"], ["s1"], [], [], [], true⟩ =
      some (⟨["l1", "l2"], ["s1"], [], [], [], true⟩,
        [.off "click" "l1", .off "mouseenter" "l1", .off "mouseleave" "l1",
         .off "mousemove" "l1", .removeLayer "l1"], false) ∧
    EngineCall.removeLayer "l2" ∉
      ([.off "click" "l1", .off "mouseenter" "l1", .off "mouseleave" "l1",
        .off "mousemove" "l1", .removeLayer "l1"] : List EngineCall) ∧
    EngineCall.removeSource "s1" ∉
      ([.off "click" "l1", .off "mouseenter" "l1", .off "mouseleave" "l1",
        .off "mousemove" "l1", .removeLayer "l1"] : List EngineCall) := by
  decide

/-- C7 is false on the code: after `removeLayer "l1"` throws, the id `"l1"`
is still in `layerIdsToRemove` (the field reset on line 559 is skipped), and
the next flush attempts the very same teardown again. -/
theorem failed_removal_retried_counterexample :
    applyChanges (failEngine "l1") 5 ⟨["l1"], [], [], [], [], true⟩ =
      some (⟨["l1"], [], [], [], [], true⟩, layerCalls "l1", false) ∧
    "l1" ∈ (⟨["l1"], [], [], [], [], true⟩ : MapService).layerIdsToRemove ∧
    triggerN (failEngine "l1") 5 2 ⟨["l1"], [], [], [], [], true⟩ =
      some (⟨["l1"], [], [], [], [], true⟩,
        layerCalls "l1" ++ layerCalls "l1") := by
  decide

/-- C3 is false on the code: with layer l1 and source s1 pending and an
engine whose `removeLayer "l1"` teardown reentrantly enqueues
`removeSource "s2"`, the same flush also removes s2 (the `for...of` loop in
`removeSources` iterates the live array, not a snapshot), and s2 is not
pending when the flush returns. -/
theorem reentrant_enqueue_same_flush_counterexample :
    applyChanges engReenter 5 ⟨["l1"], ["s1"], [], [], [], true⟩ =
      some (⟨[], [], [], [], [], true⟩,
        layerCalls "l1" ++ [.removeSource "s1", .removeSource "s2"], true) ∧
    EngineCall.removeSource "s2" ∈
      (layerCalls "l1" ++ [.removeSource "s1", .removeSource "s2"]) ∧
    (⟨[], [], [], [], [], true⟩ : MapService).sourceIdsToRemove = [] := by
  decide

/-- C2 (amended): there is no `try`/`catch` in the flush path, so when the
teardown of some entry throws, the exception escapes `applyChanges` (flag
`false`); the calls actually attempted form an initial segment of the
canonical teardown sequence whose last element is the first throwing call —
no later entry of the failing kind and no entry of any subsequent kind is
processed by that flush.  (Stated for teardowns that do not reentrantly
enqueue.) -/
theorem flush_failure_aborts_remaining (eng : Engine) (fuel : Nat)
    (s s1 : MapService) (tr : List EngineCall)
    (heff : effectsTrivial eng)
    (h : applyChanges eng fuel s = some (s1, tr, false)) :
    (∃ w, flushTrace s = tr ++ w) ∧ failShape eng tr :=
  (traceInv_applyChanges eng heff fuel s s1 tr false h).2 rfl

/-- Witness for C2 (amended) at the l1-throws scenario. -/
theorem flush_failure_aborts_remaining_witness :
    (∃ w, flushTrace ⟨["l1", "l2"], ["s1"], [], [], [], true⟩ =
      [.off "click" "l1", .off "mouseenter" "l1", .off "mouseleave" "l1",
       .off "mousemove" "l1", .removeLayer "l1"] ++ w) ∧
    failShape (failEngine "l1")
      [.off "click" "l1", .off "mouseenter" "l1", .off "mouseleave" "l1",
       .off "mousemove" "l1", .removeLayer "l1"] :=
  flush_failure_aborts_remaining (failEngine "l1") 5
    ⟨["l1", "l2"], ["s1"], [], [], [], true⟩
    ⟨["l1", "l2"], ["s1"], [], [], [], true⟩
    [.off "click" "l1", .off "mouseenter" "l1", .off "mouseleave" "l1",
     .off "mousemove" "l1", .removeLayer "l1"]
    (fun _ => rfl) (by decide)

/-- C7 (amended): a failed removal is not discarded — when a teardown of
some kind throws, that private method aborts before its field reset, so the
whole pending array of that kind (the failed entry included, along with any
entries of the same kind already torn down in the aborted pass) is left
exactly as it was and will be re-attempted by the next flush.  (Stated for
teardowns that do not reentrantly enqueue.) -/
theorem failed_removal_kept_pending (eng : Engine) (fuel : Nat)
    (heff : effectsTrivial eng) (s s1 : MapService) (tr : List EngineCall) :
    (removeLayers eng fuel s = some (s1, tr, false) → s1 = s) ∧
    (removeSources eng fuel s = some (s1, tr, false) → s1 = s) ∧
    (removeMarkers eng fuel s = some (s1, tr, false) → s1 = s) ∧
    (removePopups eng fuel s = some (s1, tr, false) → s1 = s) ∧
    (removeImages eng fuel s = some (s1, tr, false) → s1 = s) := by
  refine ⟨?_, ?_, ?_, ?_, ?_⟩ <;> intro h <;>
    exact ((drainKind_spec eng _ heff fuel s s1 tr false h).2 rfl).1

/-- Witness for C7 (amended): instantiated at the l1-throws scenario. -/
theorem failed_removal_kept_pending_witness :
    (removeLayers (failEngine "l1") 5 ⟨["l1"], [], [], [], [], true⟩ =
        some (⟨["l1"], [], [], [], [], true⟩, layerCalls "l1", false) →
      (⟨["l1"], [], [], [], [], true⟩ : MapService) =
        ⟨["l1"], [], [], [], [], true⟩) ∧
    (removeSources (failEngine "l1") 5 ⟨["l1"], [], [], [], [], true⟩ =
        some (⟨["l1"], [], [], [], [], true⟩, layerCalls "l1", false) →
      (⟨["l1"], [], [], [], [], true⟩ : MapService) =
        ⟨["l1"], [], [], [], [], true⟩) ∧
    (removeMarkers (failEngine "l1") 5 ⟨["l1"], [], [], [], [], true⟩ =
        some (⟨["l1"], [], [], [], [], true⟩, layerCalls "l1", false) →
      (⟨["l1"], [], [], [], [], true⟩ : MapService) =
        ⟨["l1"], [], [], [], [], true⟩) ∧
    (removePopups (failEngine "l1") 5 ⟨["l1"], [], [], [], [], true⟩ =
        some (⟨["l1"], [], [], [], [], true⟩, layerCalls "l1", false) →
      (⟨["l1"], [], [], [], [], true⟩ : MapService) =
        ⟨["l1"], [], [], [], [], true⟩) ∧
    (removeImages (failEngine "l1") 5 ⟨["l1"], [], [], [], [], true⟩ =
        some (⟨["l1"], [], [], [], [], true⟩, layerCalls "l1", false) →
      (⟨["l1"], [], [], [], [], true⟩ : MapService) =
        ⟨["l1"], [], [], [], [], true⟩) :=
  failed_removal_kept_pending (failEngine "l1") 5 (fun _ => rfl)
    ⟨["l1"], [], [], [], [], true⟩ ⟨["l1"], [], [], [], [], true⟩
    (layerCalls "l1")

/-- C3 (amended): the flush processes the live pending arrays, not a
snapshot taken at flush start.  A removal enqueued reentrantly by a teardown
callback is processed by the same flush whenever its kind has not yet
finished draining: in the first conjunct, tearing down layer `l` enqueues
image `img`, and the same flush removes `img` after the images already
queued, leaving nothing pending.  Only a removal aimed at a kind whose
sequence was already drained earlier in the same flush stays pending for the
next one: in the second conjunct, tearing down image `img` enqueues layer
`lX`, and the flush returns with `lX` as the only pending entry. -/
theorem reentrant_enqueue_live_loop (l img lX : String) (L S : List String)
    (M : List Marker) (P : List Popup) (I : List String) (b : Bool) :
    (applyChanges (engEarly l img)
        (S.length + M.length + P.length + I.length + 3) ⟨[l], S, M, P, I, b⟩ =
      some (⟨[], [], [], [], [], b⟩,
        layerCalls l ++ S.flatMap sourceCalls ++ M.flatMap markerCalls ++
          P.flatMap popupCalls ++ (I ++ [img]).flatMap imageCalls, true)) ∧
    (applyChanges (engLate img lX)
        (L.length + S.length + M.length + P.length + 2) ⟨L, S, M, P, [img], b⟩ =
      some (⟨[lX], [], [], [], [], b⟩,
        L.flatMap layerCalls ++ S.flatMap sourceCalls ++
          M.flatMap markerCalls ++ P.flatMap popupCalls ++ imageCalls img,
        true)) := by
  constructor
  · have dL : removeLayers (engEarly l img)
        (S.length + M.length + P.length + I.length + 3) ⟨[l], S, M, P, I, b⟩ =
        some (⟨[], S, M, P, I ++ [img], b⟩, layerCalls l, true) :=
      drainKind_singleton (engEarly l img) layersKind _
        ⟨[l], S, M, P, I, b⟩ (MapService.removeImage ⟨[l], S, M, P, I, b⟩ img)
        l (layerCalls l) rfl (runCalls_engEarly l img _) rfl (by omega)
    have dS : removeSources (engEarly l img)
        (S.length + M.length + P.length + I.length + 3)
        ⟨[], S, M, P, I ++ [img], b⟩ =
        some (⟨[], [], M, P, I ++ [img], b⟩, S.flatMap sourceCalls, true) := by
      refine drainKind_quiet _ sourcesKind _ _ ?_ ?_
      · intro c hc
        refine ⟨rfl, engEarly_effects_ne l img c ?_⟩
        simp only [sourcesKind_get, sourcesKind_calls] at hc
        simp only [sourceCalls, List.mem_flatMap, List.mem_singleton] at hc
        obtain ⟨x, hx, rfl⟩ := hc
        simp
      · simp only [sourcesKind_get]
        omega
    have dM : removeMarkers (engEarly l img)
        (S.length + M.length + P.length + I.length + 3)
        ⟨[], [], M, P, I ++ [img], b⟩ =
        some (⟨[], [], [], P, I ++ [img], b⟩, M.flatMap markerCalls, true) := by
      refine drainKind_quiet _ markersKind _ _ ?_ ?_
      · intro c hc
        refine ⟨rfl, engEarly_effects_ne l img c ?_⟩
        simp only [markersKind_get, markersKind_calls] at hc
        simp only [markerCalls, List.mem_flatMap, List.mem_singleton] at hc
        obtain ⟨x, hx, rfl⟩ := hc
        simp
      · simp only [markersKind_get]
        omega
    have dP : removePopups (engEarly l img)
        (S.length + M.length + P.length + I.length + 3)
        ⟨[], [], [], P, I ++ [img], b⟩ =
        some (⟨[], [], [], [], I ++ [img], b⟩, P.flatMap popupCalls, true) := by
      refine drainKind_quiet _ popupsKind _ _ ?_ ?_
      · intro c hc
        refine ⟨rfl, engEarly_effects_ne l img c ?_⟩
        simp only [popupsKind_get, popupsKind_calls] at hc
        simp only [popupCalls, List.mem_flatMap, List.mem_singleton] at hc
        obtain ⟨x, hx, rfl⟩ := hc
        simp
      · simp only [popupsKind_get]
        omega
    have dI : removeImages (engEarly l img)
        (S.length + M.length + P.length + I.length + 3)
        ⟨[], [], [], [], I ++ [img], b⟩ =
        some (⟨[], [], [], [], [], b⟩, (I ++ [img]).flatMap imageCalls, true) := by
      refine drainKind_quiet _ imagesKind _ _ ?_ ?_
      · intro c hc
        refine ⟨rfl, engEarly_effects_ne l img c ?_⟩
        simp only [imagesKind_get, imagesKind_calls] at hc
        simp only [imageCalls, List.mem_flatMap, List.mem_singleton] at hc
        obtain ⟨x, hx, rfl⟩ := hc
        simp
      · simp only [imagesKind_get]
        simp only [List.length_append, List.length_singleton]
        omega
    rw [applyChanges, dL]
    simp only [andThen]
    rw [dS]
    simp only [andThen]
    rw [dM]
    simp only [andThen]
    rw [dP]
    simp only [andThen]
    rw [dI]
    simp [List.append_assoc]
  · have dL : removeLayers (engLate img lX)
        (L.length + S.length + M.length + P.length + 2) ⟨L, S, M, P, [img], b⟩ =
        some (⟨[], S, M, P, [img], b⟩, L.flatMap layerCalls, true) := by
      refine drainKind_quiet _ layersKind _ _ ?_ ?_
      · intro c hc
        refine ⟨rfl, engLate_effects_ne img lX c ?_⟩
        simp only [layersKind_get, layersKind_calls] at hc
        simp only [layerCalls, List.mem_flatMap] at hc
        obtain ⟨x, hx, hcx⟩ := hc
        simp only [List.mem_cons, List.mem_singleton, List.not_mem_nil,
          or_false] at hcx
        rcases hcx with rfl | rfl | rfl | rfl | rfl <;> simp
      · simp only [layersKind_get]
        omega
    have dS : removeSources (engLate img lX)
        (L.length + S.length + M.length + P.length + 2)
        ⟨[], S, M, P, [img], b⟩ =
        some (⟨[], [], M, P, [img], b⟩, S.flatMap sourceCalls, true) := by
      refine drainKind_quiet _ sourcesKind _ _ ?_ ?_
      · intro c hc
        refine ⟨rfl, engLate_effects_ne img lX c ?_⟩
        simp only [sourcesKind_get, sourcesKind_calls] at hc
        simp only [sourceCalls, List.mem_flatMap, List.mem_singleton] at hc
        obtain ⟨x, hx, rfl⟩ := hc
        simp
      · simp only [sourcesKind_get]
        omega
    have dM : removeMarkers (engLate img lX)
        (L.length + S.length + M.length + P.length + 2)
        ⟨[], [], M, P, [img], b⟩ =
        some (⟨[], [], [], P, [img], b⟩, M.flatMap markerCalls, true) := by
      refine drainKind_quiet _ markersKind _ _ ?_ ?_
      · intro c hc
        refine ⟨rfl, engLate_effects_ne img lX c ?_⟩
        simp only [markersKind_get, markersKind_calls] at hc
        simp only [markerCalls, List.mem_flatMap, List.mem_singleton] at hc
        obtain ⟨x, hx, rfl⟩ := hc
        simp
      · simp only [markersKind_get]
        omega
    have dP : removePopups (engLate img lX)
        (L.length + S.length + M.length + P.length + 2)
        ⟨[], [], [], P, [img], b⟩ =
        some (⟨[], [], [], [], [img], b⟩, P.flatMap popupCalls, true) := by
      refine drainKind_quiet _ popupsKind _ _ ?_ ?_
      · intro c hc
        refine ⟨rfl, engLate_effects_ne img lX c ?_⟩
        simp only [popupsKind_get, popupsKind_calls] at hc
        simp only [popupCalls, List.mem_flatMap, List.mem_singleton] at hc
        obtain ⟨x, hx, rfl⟩ := hc
        simp
      · simp only [popupsKind_get]
        omega
    have dI : removeImages (engLate img lX)
        (L.length + S.length + M.length + P.length + 2)
        ⟨[], [], [], [], [img], b⟩ =
        some (⟨[lX], [], [], [], [], b⟩, imageCalls img, true) :=
      drainKind_singleton (engLate img lX) imagesKind _
        ⟨[], [], [], [], [img], b⟩
        (MapService.removeLayer ⟨[], [], [], [], [img], b⟩ lX) img
        (imageCalls img) rfl (runCalls_engLate img lX _) rfl (by omega)
    rw [applyChanges, dL]
    simp only [andThen]
    rw [dS]
    simp only [andThen]
    rw [dM]
    simp only [andThen]
    rw [dP]
    simp only [andThen]
    rw [dI]
    simp [List.append_assoc]

/-- C5: the five pending sequences are empty at service construction; a
fully successful flush leaves all five empty; and a kind's sequence, once
its drain completed without throwing, is reset to empty even when the drain
of a later kind throws (`allOk` over a kind's canonical calls expresses
that its drain could not have thrown).  Stated for teardowns that do not
reentrantly enqueue. -/
theorem pending_lifecycle (eng : Engine) (fuel : Nat) (s s1 : MapService)
    (tr : List EngineCall) (ok : Bool) (heff : effectsTrivial eng)
    (h : applyChanges eng fuel s = some (s1, tr, ok)) :
    MapService.init.layerIdsToRemove = [] ∧
    MapService.init.sourceIdsToRemove = [] ∧
    MapService.init.markersToRemove = [] ∧
    MapService.init.popupsToRemove = [] ∧
    MapService.init.imageIdsToRemove = [] ∧
    (ok = true → s1 = drained s) ∧
    (allOk eng (s.layerIdsToRemove.flatMap layerCalls) →
      s1.layerIdsToRemove = []) ∧
    (allOk eng (s.layerIdsToRemove.flatMap layerCalls ++
        s.sourceIdsToRemove.flatMap sourceCalls) →
      s1.layerIdsToRemove = [] ∧ s1.sourceIdsToRemove = []) ∧
    (allOk eng (s.layerIdsToRemove.flatMap layerCalls ++
        s.sourceIdsToRemove.flatMap sourceCalls ++
        s.markersToRemove.flatMap markerCalls) →
      s1.layerIdsToRemove = [] ∧ s1.sourceIdsToRemove = [] ∧
        s1.markersToRemove = []) ∧
    (allOk eng (s.layerIdsToRemove.flatMap layerCalls ++
        s.sourceIdsToRemove.flatMap sourceCalls ++
        s.markersToRemove.flatMap markerCalls ++
        s.popupsToRemove.flatMap popupCalls) →
      s1.layerIdsToRemove = [] ∧ s1.sourceIdsToRemove = [] ∧
        s1.markersToRemove = [] ∧ s1.popupsToRemove = []) := by
  have hca := applyChanges_cases eng heff fuel s s1 tr ok h
  refine ⟨rfl, rfl, rfl, rfl, rfl, ?_, ?_, ?_, ?_, ?_⟩
  · intro ht
    rcases hca with ⟨-, hs⟩ | ⟨hok, -⟩
    · exact hs
    · rw [ht] at hok
      exact Bool.noConfusion hok
  · intro hOk
    rcases hca with ⟨-, hs⟩ | ⟨-, c, hc, hcase⟩
    · rw [hs]; rfl
    · rcases hcase with ⟨hs, hm⟩ | ⟨hs, hm⟩ | ⟨hs, hm⟩ | ⟨hs, hm⟩ | ⟨hs, hm⟩
      · rw [hOk c hm] at hc
        exact Bool.noConfusion hc
      all_goals rw [hs]
  · intro hOk
    rcases hca with ⟨-, hs⟩ | ⟨-, c, hc, hcase⟩
    · rw [hs]; exact ⟨rfl, rfl⟩
    · rcases hcase with ⟨hs, hm⟩ | ⟨hs, hm⟩ | ⟨hs, hm⟩ | ⟨hs, hm⟩ | ⟨hs, hm⟩
      · rw [hOk c (List.mem_append_left _ hm)] at hc
        exact Bool.noConfusion hc
      · rw [hOk c (List.mem_append_right _ hm)] at hc
        exact Bool.noConfusion hc
      all_goals rw [hs]; exact ⟨rfl, rfl⟩
  · intro hOk
    rcases hca with ⟨-, hs⟩ | ⟨-, c, hc, hcase⟩
    · rw [hs]; exact ⟨rfl, rfl, rfl⟩
    · rcases hcase with ⟨hs, hm⟩ | ⟨hs, hm⟩ | ⟨hs, hm⟩ | ⟨hs, hm⟩ | ⟨hs, hm⟩
      · rw [hOk c (List.mem_append_left _ (List.mem_append_left _ hm))] at hc
        exact Bool.noConfusion hc
      · rw [hOk c (List.mem_append_left _ (List.mem_append_right _ hm))] at hc
        exact Bool.noConfusion hc
      · rw [hOk c (List.mem_append_right _ hm)] at hc
        exact Bool.noConfusion hc
      all_goals rw [hs]; exact ⟨rfl, rfl, rfl⟩
  · intro hOk
    rcases hca with ⟨-, hs⟩ | ⟨-, c, hc, hcase⟩
    · rw [hs]; exact ⟨rfl, rfl, rfl, rfl⟩
    · rcases hcase with ⟨hs, hm⟩ | ⟨hs, hm⟩ | ⟨hs, hm⟩ | ⟨hs, hm⟩ | ⟨hs, hm⟩
      · rw [hOk c (List.mem_append_left _
          (List.mem_append_left _ (List.mem_append_left _ hm)))] at hc
        exact Bool.noConfusion hc
      · rw [hOk c (List.mem_append_left _
          (List.mem_append_left _ (List.mem_append_right _ hm)))] at hc
        exact Bool.noConfusion hc
      · rw [hOk c (List.mem_append_left _ (List.mem_append_right _ hm))] at hc
        exact Bool.noConfusion hc
      · rw [hOk c (List.mem_append_right _ hm)] at hc
        exact Bool.noConfusion hc
      · rw [hs]; exact ⟨rfl, rfl, rfl, rfl⟩

/-- Witness for C5: a flush that succeeds for layers, sources, markers and
popups and then throws on `removeImage "i1"` still leaves the first four
sequences empty (and the initial state is empty). -/
theorem pending_lifecycle_witness :
    (⟨[], [], [], [], ["i1"], true⟩ : MapService).layerIdsToRemove = [] ∧
    (⟨[], [], [], [], ["i1"], true⟩ : MapService).sourceIdsToRemove = [] ∧
    (⟨[], [], [], [], ["i1"], true⟩ : MapService).markersToRemove = [] ∧
    (⟨[], [], [], [], ["i1"], true⟩ : MapService).popupsToRemove = [] :=
  (pending_lifecycle (failImageEngine "i1") 5
    ⟨["l1"], ["s1"], [1], [2], ["i1"], true⟩
    ⟨[], [], [], [], ["i1"], true⟩
    [.off "click" "l1", .off "mouseenter" "l1", .off "mouseleave" "l1",
     .off "mousemove" "l1", .removeLayer "l1", .removeSource "s1",
     .markerRemove 1, .popupRemove 2, .removeImage "i1"] false
    (fun _ => rfl) (by decide)).2.2.2.2.2.2.2.2.2 (by decide)

theorem count_imageCalls (l : List String) (imageId : String) :
    (l.flatMap imageCalls).count (EngineCall.removeImage imageId) =
      l.count imageId := by
  induction l with
  | nil => rfl
  | cons x l ih => simp [imageCalls, List.count_cons, ih]

theorem count_removeImage_layerSeg (l : List String) (imageId : String) :
    (l.flatMap layerCalls).count (EngineCall.removeImage imageId) = 0 := by
  rw [List.count_eq_zero]
  simp [layerCalls, List.mem_flatMap]

theorem count_removeImage_sourceSeg (l : List String) (imageId : String) :
    (l.flatMap sourceCalls).count (EngineCall.removeImage imageId) = 0 := by
  rw [List.count_eq_zero]
  simp [sourceCalls, List.mem_flatMap]

theorem count_removeImage_markerSeg (l : List Marker) (imageId : String) :
    (l.flatMap markerCalls).count (EngineCall.removeImage imageId) = 0 := by
  rw [List.count_eq_zero]
  simp [markerCalls, List.mem_flatMap]

theorem count_removeImage_popupSeg (l : List Popup) (imageId : String) :
    (l.flatMap popupCalls).count (EngineCall.removeImage imageId) = 0 := by
  rw [List.count_eq_zero]
  simp [popupCalls, List.mem_flatMap]

theorem count_removeImage_flushTrace (s : MapService) (imageId : String) :
    (flushTrace s).count (EngineCall.removeImage imageId) =
      s.imageIdsToRemove.count imageId := by
  simp [flushTrace, List.count_append, count_imageCalls,
    count_removeImage_layerSeg, count_removeImage_sourceSeg,
    count_removeImage_markerSeg, count_removeImage_popupSeg]

/-- C6: every removal-enqueue method appends its identifier/handle to the
sequence of its own kind, never fails (it is a total function with no
engine interaction — engine calls occur only inside a flush), and is not
idempotent: enqueueing the same image id twice appends it twice, and the
next quiet flush then attempts `removeImage` of that id exactly two more
times than the already-queued occurrences, with no deduplication. -/
theorem enqueue_appends_no_dedup (eng : Engine) (fuel : Nat) (s : MapService)
    (layerId sourceId imageId : String) (m : Marker) (p : Popup) (skip : Bool)
    (hq : quietOn eng (flushTrace ((s.removeImage imageId).removeImage imageId)))
    (h1 : s.layerIdsToRemove.length < fuel)
    (h2 : s.sourceIdsToRemove.length < fuel)
    (h3 : s.markersToRemove.length < fuel)
    (h4 : s.popupsToRemove.length < fuel)
    (h5 : s.imageIdsToRemove.length + 2 < fuel) :
    (s.removeLayer layerId).layerIdsToRemove = s.layerIdsToRemove ++ [layerId] ∧
    (s.removeSource sourceId).sourceIdsToRemove =
      s.sourceIdsToRemove ++ [sourceId] ∧
    (s.removeMarker m).markersToRemove = s.markersToRemove ++ [m] ∧
    (s.removePopupFromMap p skip).popupsToRemove = s.popupsToRemove ++ [p] ∧
    (s.removeImage imageId).imageIdsToRemove = s.imageIdsToRemove ++ [imageId] ∧
    ((s.removeImage imageId).removeImage imageId).imageIdsToRemove =
      s.imageIdsToRemove ++ [imageId, imageId] ∧
    applyChanges eng fuel ((s.removeImage imageId).removeImage imageId) =
      some (drained ((s.removeImage imageId).removeImage imageId),
        flushTrace ((s.removeImage imageId).removeImage imageId), true) ∧
    (flushTrace ((s.removeImage imageId).removeImage imageId)).count
        (EngineCall.removeImage imageId) =
      s.imageIdsToRemove.count imageId + 2 := by
  have happ := applyChanges_quiet eng fuel
    ((s.removeImage imageId).removeImage imageId) hq h1 h2 h3 h4
    (by simp [MapService.removeImage]; omega)
  refine ⟨rfl, rfl, rfl, rfl, rfl, by simp [MapService.removeImage], happ, ?_⟩
  rw [count_removeImage_flushTrace]
  simp [MapService.removeImage, List.count_append, List.count_cons]

/-- Witness for C6 at the fresh service with image "i1" enqueued twice. -/
theorem enqueue_appends_no_dedup_witness :
    ((MapService.init.removeLayer "l").layerIdsToRemove =
        MapService.init.layerIdsToRemove ++ ["l"] ∧
      (MapService.init.removeSource "s").sourceIdsToRemove =
        MapService.init.sourceIdsToRemove ++ ["s"] ∧
      (MapService.init.removeMarker 1).markersToRemove =
        MapService.init.markersToRemove ++ [1] ∧
      (MapService.init.removePopupFromMap 2 false).popupsToRemove =
        MapService.init.popupsToRemove ++ [2] ∧
      (MapService.init.removeImage "i1").imageIdsToRemove =
        MapService.init.imageIdsToRemove ++ ["i1"] ∧
      ((MapService.init.removeImage "i1").removeImage "i1").imageIdsToRemove =
        MapService.init.imageIdsToRemove ++ ["i1", "i1"] ∧
      applyChanges quietEngine 3
          ((MapService.init.removeImage "i1").removeImage "i1") =
        some (drained ((MapService.init.removeImage "i1").removeImage "i1"),
          flushTrace ((MapService.init.removeImage "i1").removeImage "i1"),
          true) ∧
      (flushTrace ((MapService.init.removeImage "i1").removeImage "i1")).count
          (EngineCall.removeImage "i1") =
        MapService.init.imageIdsToRemove.count "i1" + 2) :=
  enqueue_appends_no_dedup quietEngine 3 MapService.init "l" "s" "i1" 1 2 false
    (fun c _ => ⟨rfl, rfl⟩) (by decide) (by decide) (by decide) (by decide)
    (by decide)

/-- C9: in a quiet flush, each pending layer id's teardown appears in the
trace as the contiguous block `layerCalls` — the four interaction-listener
unbindings (`off` for click, mouseenter, mouseleave, mousemove) followed by
the engine `removeLayer` for that id, so the listeners are unbound before
the layer is removed — and the whole trace splits into a layer phase
containing every `removeLayer` and no `removeSource`, followed by a
remainder containing every `removeSource` and no `removeLayer`: all layer
removals complete before any source removal is issued. -/
theorem layer_listeners_unbound_before_removal (eng : Engine) (fuel : Nat)
    (s : MapService) (hq : quietOn eng (flushTrace s))
    (h1 : s.layerIdsToRemove.length < fuel)
    (h2 : s.sourceIdsToRemove.length < fuel)
    (h3 : s.markersToRemove.length < fuel)
    (h4 : s.popupsToRemove.length < fuel)
    (h5 : s.imageIdsToRemove.length < fuel) :
    ∃ tr, applyChanges eng fuel s = some (drained s, tr, true) ∧
      (∀ layerId ∈ s.layerIdsToRemove,
        ∃ u v, tr = u ++ layerCalls layerId ++ v) ∧
      ∃ t1 t2, tr = t1 ++ t2 ∧
        t1 = s.layerIdsToRemove.flatMap layerCalls ∧
        (∀ x, EngineCall.removeSource x ∉ t1) ∧
        (∀ x, EngineCall.removeLayer x ∉ t2) := by
  refine ⟨flushTrace s, applyChanges_quiet eng fuel s hq h1 h2 h3 h4 h5, ?_, ?_⟩
  · intro layerId hmem
    obtain ⟨u0, v0, hsplit⟩ := List.append_of_mem hmem
    refine ⟨u0.flatMap layerCalls,
      v0.flatMap layerCalls ++ (s.sourceIdsToRemove.flatMap sourceCalls ++
        (s.markersToRemove.flatMap markerCalls ++
          (s.popupsToRemove.flatMap popupCalls ++
            s.imageIdsToRemove.flatMap imageCalls))), ?_⟩
    rw [flushTrace, hsplit]
    simp [List.flatMap_append, List.flatMap_cons, List.append_assoc]
  · refine ⟨s.layerIdsToRemove.flatMap layerCalls,
      s.sourceIdsToRemove.flatMap sourceCalls ++
        (s.markersToRemove.flatMap markerCalls ++
          (s.popupsToRemove.flatMap popupCalls ++
            s.imageIdsToRemove.flatMap imageCalls)), ?_, rfl, ?_, ?_⟩
    · rw [flushTrace]
      simp [List.append_assoc]
    · intro x hx
      simp [layerCalls, List.mem_flatMap] at hx
    · intro x hx
      simp [sourceCalls, markerCalls, popupCalls, imageCalls,
        List.mem_append, List.mem_flatMap] at hx

/-- Witness for C9 with layer l1 and source s1 pending. -/
theorem layer_listeners_unbound_before_removal_witness :
    ∃ tr, applyChanges quietEngine 2 ⟨["l1"], ["s1"], [], [], [], true⟩ =
        some (drained ⟨["l1"], ["s1"], [], [], [], true⟩, tr, true) ∧
      (∀ layerId ∈
          (⟨["l1"], ["s1"], [], [], [], true⟩ : MapService).layerIdsToRemove,
        ∃ u v, tr = u ++ layerCalls layerId ++ v) ∧
      ∃ t1 t2, tr = t1 ++ t2 ∧
        t1 = (⟨["l1"], ["s1"], [], [], [], true⟩ :
          MapService).layerIdsToRemove.flatMap layerCalls ∧
        (∀ x, EngineCall.removeSource x ∉ t1) ∧
        (∀ x, EngineCall.removeLayer x ∉ t2) :=
  layer_listeners_unbound_before_removal quietEngine 2
    ⟨["l1"], ["s1"], [], [], [], true⟩ (fun c _ => ⟨rfl, rfl⟩)
    (by decide) (by decide) (by decide) (by decide) (by decide)

end NgxMapboxGL
